import Mathlib

/-!
# Verification of the coffee-shop bot's catalog & cart store

Shallow embedding of `coffee_repository.py` (class `CoffeeRepository`) and of
the relevant handlers of `main.py`. The SQLite database is modelled as an
explicit `Store` value: the `coffees` table as a list of `Coffee` rows in
insertion (rowid) order, the `cart_items` table as a list of `CartItem` rows
in insertion order, together with the two AUTOINCREMENT counters.

One modelling note that matters: the schema created by `initialize` declares
`FOREIGN KEY (coffee_id) REFERENCES coffees (id) ON DELETE CASCADE`, but the
process never executes `PRAGMA foreign_keys = ON`, and Python's `sqlite3`
module leaves foreign-key enforcement at SQLite's default (off). At runtime
the cascade clause is therefore inert: `DELETE FROM coffees WHERE id = ?`
removes only the coffee row and leaves referencing `cart_items` rows in
place. The embedding of `delete_coffee` reflects that runtime behaviour.

Prices (SQLite `REAL`) are modelled as rationals; the claims under
consideration are algebraic identities about the very expressions the SQL
computes (`price * count`, sums of line totals), not about rounding.
Timestamps are not modelled: no claim mentions them.
-/

/-- A row of the `coffees` table (timestamp columns omitted). -/
structure Coffee where
  id : Nat
  name : String
  description : String
  picture_url : String
  price : ℚ
deriving Repr, DecidableEq

/-- A row of the `cart_items` table (timestamp column omitted).
`count` is a raw Python integer: the store performs no positivity check. -/
structure CartItem where
  id : Nat
  user_id : Int
  coffee_id : Nat
  count : Int
deriving Repr, DecidableEq

/-- The database state: both tables in rowid order plus the AUTOINCREMENT
counters (SQLite AUTOINCREMENT never reuses ids, so a monotone counter is a
faithful model). -/
structure Store where
  coffees : List Coffee
  cart_items : List CartItem
  next_coffee_id : Nat
  next_cart_id : Nat
deriving Repr, DecidableEq

/-- A fresh database: both tables empty, AUTOINCREMENT starts at 1. -/
def emptyStore : Store := ⟨[], [], 1, 1⟩

/-- Models `CoffeeRepository.initialize`: `CREATE TABLE IF NOT EXISTS` for
both tables is idempotent; on the model, where the relations always exist,
it changes nothing and reports success. -/
def init_db (st : Store) : Bool × Store := (true, st)

/-- Models `CoffeeRepository.add_coffee`: inserts a row with the generated
id and returns that id (`cursor.lastrowid`). -/
def add_coffee (name description picture_url : String) (price : ℚ)
    (st : Store) : Nat × Store :=
  (st.next_coffee_id,
   { st with
       coffees := st.coffees ++
         [⟨st.next_coffee_id, name, description, picture_url, price⟩],
       next_coffee_id := st.next_coffee_id + 1 })

/-- Models `CoffeeRepository.update_coffee`: `UPDATE coffees SET ... WHERE
id = ?`; returns `cursor.rowcount > 0`, i.e. whether some row matched. -/
def update_coffee (i : Nat) (name description picture_url : String)
    (price : ℚ) (st : Store) : Bool × Store :=
  (st.coffees.any (fun c => decide (c.id = i)),
   { st with
       coffees := st.coffees.map (fun c =>
         if c.id = i then
           { c with name := name, description := description,
                    picture_url := picture_url, price := price }
         else c) })

/-- Models `CoffeeRepository.delete_coffee`: `DELETE FROM coffees WHERE
id = ?`. Foreign-key enforcement is off on every connection (no
`PRAGMA foreign_keys = ON`), so the `ON DELETE CASCADE` clause declared in
the schema does not fire: `cart_items` is untouched. Returns
`cursor.rowcount > 0`. -/
def delete_coffee (i : Nat) (st : Store) : Bool × Store :=
  (st.coffees.any (fun c => decide (c.id = i)),
   { st with coffees := st.coffees.filter (fun c => decide (¬ c.id = i)) })

/-- Models `CoffeeRepository.list_coffee`: with an id, `SELECT ... WHERE
id = ?` (rowid order); without, `SELECT ... ORDER BY name`. SQLite's binary
collation on UTF-8 text agrees with Lean's lexicographic `String` order. -/
def list_coffee (coffee_id : Option Nat) (st : Store) : List Coffee :=
  match coffee_id with
  | some i => st.coffees.filter (fun c => decide (c.id = i))
  | none => List.insertionSort (fun a b => a.name ≤ b.name) st.coffees

/-- Models `CoffeeRepository.add_to_cart`: first checks the coffee exists
(else returns `False`); then `fetchone` on the rows matching
`(user_id, coffee_id)` — i.e. the first such row in rowid order. If found,
`UPDATE cart_items SET count = existing.count + count WHERE id =
existing.id`; otherwise a fresh row is inserted. -/
def add_to_cart (user_id : Int) (coffee_id : Nat) (count : Int)
    (st : Store) : Bool × Store :=
  if st.coffees.any (fun c => decide (c.id = coffee_id)) then
    match st.cart_items.find?
        (fun r => decide (r.user_id = user_id ∧ r.coffee_id = coffee_id)) with
    | some r =>
      (true,
       { st with
           cart_items := st.cart_items.map (fun x =>
             if x.id = r.id then { x with count := r.count + count } else x) })
    | none =>
      (true,
       { st with
           cart_items := st.cart_items ++
             [⟨st.next_cart_id, user_id, coffee_id, count⟩],
           next_cart_id := st.next_cart_id + 1 })
  else (false, st)

/-- Models `CoffeeRepository.clear_cart`: with a user,
`DELETE FROM cart_items WHERE user_id = ?`; without,
`DELETE FROM cart_items`. Always returns `True` (absent engine errors). -/
def clear_cart (user_id : Option Int) (st : Store) : Bool × Store :=
  match user_id with
  | some u =>
    (true, { st with
               cart_items := st.cart_items.filter
                 (fun r => decide (¬ r.user_id = u)) })
  | none => (true, { st with cart_items := [] })

/-- One result row of `get_cart_items`' join. `user_id` is `some` only for
the unscoped query, whose SELECT list additionally projects `ci.user_id`. -/
structure CartLine where
  user_id : Option Int
  coffee_id : Nat
  name : String
  description : String
  picture_url : String
  price : ℚ
  count : Int
  total_price : ℚ
deriving Repr, DecidableEq

/-- Models `CoffeeRepository.get_cart_items`: an inner join
`FROM cart_items ci JOIN coffees c ON ci.coffee_id = c.id`, optionally
restricted by `WHERE ci.user_id = ?`, projecting
`(c.price * ci.count) AS total_price` per row. Cart rows whose `coffee_id`
matches no coffee produce no output row. -/
def get_cart_items (user_id : Option Int) (st : Store) : List CartLine :=
  let rows : List CartItem := match user_id with
    | some u => st.cart_items.filter (fun r => decide (r.user_id = u))
    | none => st.cart_items
  rows.filterMap (fun ci =>
    match st.coffees.find? (fun c => decide (c.id = ci.coffee_id)) with
    | some c =>
      some { user_id := match user_id with
               | some _ => none
               | none => some ci.user_id,
             coffee_id := c.id, name := c.name,
             description := c.description, picture_url := c.picture_url,
             price := c.price, count := ci.count,
             total_price := c.price * (ci.count : ℚ) }
    | none => none)

/-! ## Conversation-controller fragments from `main.py` -/

/-- Outbound render instructions of `main.py`, abstracted from the verbatim
UI strings: the cart view (per-line items plus the grand total rendered as
`Усього`), the empty-cart message, and the checkout confirmation text that
`callback_checkout` writes over the cart view via `edit_message_text`. -/
inductive Render where
  | emptyCart
  | cartView (lines : List CartLine) (total : ℚ)
  | checkoutConfirmation
deriving Repr, DecidableEq

/-- The running total accumulated by `view_cart` in `main.py`:
`total_price = 0`, then `total_price += item['total_price']` per line. -/
def view_cart_total (items : List CartLine) : ℚ :=
  items.foldl (fun acc item => acc + item.total_price) 0

/-- Models the `view_cart` handler of `main.py`: queries the requesting
user's cart lines; on empty, the empty-state message; otherwise the cart
view with the accumulated grand total. -/
def view_cart (u : Int) (st : Store) : Render :=
  if (get_cart_items (some u) st).isEmpty then Render.emptyCart
  else Render.cartView (get_cart_items (some u) st)
    (view_cart_total (get_cart_items (some u) st))

/-- Models the `callback_checkout` handler of `main.py`: calls
`repo.clear_cart()` with NO user argument — regardless of which user pressed
the button — and replaces the cart view with the confirmation text. -/
def callback_checkout (requesting_user : Int) (st : Store) : Store × Render :=
  ((clear_cart none st).2, Render.checkoutConfirmation)

/-! ## The store's public operations as a transition system -/

/-- One invocation of a public store operation (the arguments of the call). -/
inductive Op where
  | opInitDb
  | opAddCoffee (name description picture_url : String) (price : ℚ)
  | opUpdateCoffee (i : Nat) (name description picture_url : String) (price : ℚ)
  | opDeleteCoffee (i : Nat)
  | opAddToCart (user_id : Int) (coffee_id : Nat) (count : Int)
  | opClearCart (user_id : Option Int)

/-- The state reached by executing one operation. -/
def applyOp (st : Store) : Op → Store
  | Op.opInitDb => (init_db st).2
  | Op.opAddCoffee n d p pr => (add_coffee n d p pr st).2
  | Op.opUpdateCoffee i n d p pr => (update_coffee i n d p pr st).2
  | Op.opDeleteCoffee i => (delete_coffee i st).2
  | Op.opAddToCart u c k => (add_to_cart u c k st).2
  | Op.opClearCart u => (clear_cart u st).2

/-- The state reached from the empty store by a sequence of operations. -/
def runOps (ops : List Op) : Store := ops.foldl applyOp emptyStore

/-- At most one cart row per `(user_id, coffee_id)` pair. -/
def PairwiseUniqueCart (l : List CartItem) : Prop :=
  l.Pairwise (fun a b => ¬(a.user_id = b.user_id ∧ a.coffee_id = b.coffee_id))

/-- The reachable-state invariant: generated ids are below the counters and
pairwise distinct in both tables, and cart rows have pairwise distinct
`(user, coffee)` pairs. -/
structure StoreInv (st : Store) : Prop where
  coffee_id_lt : ∀ c ∈ st.coffees, c.id < st.next_coffee_id
  coffee_id_unique : st.coffees.Pairwise (fun a b => a.id ≠ b.id)
  cart_id_lt : ∀ r ∈ st.cart_items, r.id < st.next_cart_id
  cart_id_unique : st.cart_items.Pairwise (fun a b => a.id ≠ b.id)
  cart_pair_unique : PairwiseUniqueCart st.cart_items

instance : IsTotal Coffee (fun a b => a.name ≤ b.name) :=
  ⟨fun a b => le_total a.name b.name⟩

instance : IsTrans Coffee (fun a b => a.name ≤ b.name) :=
  ⟨fun _ _ _ hab hbc => le_trans hab hbc⟩

/-! ## Helper lemmas -/

/-- If no two elements of a list both satisfy `p`, the filter by `p` keeps
at most one element. -/
theorem length_filter_le_one_of_pairwise {α : Type} {l : List α} {p : α → Bool}
    (h : l.Pairwise (fun a b => ¬(p a = true ∧ p b = true))) :
    (l.filter p).length ≤ 1 := by
  induction l with
  | nil => simp
  | cons a l ih =>
    rcases List.pairwise_cons.mp h with ⟨ha, hl⟩
    by_cases hpa : p a = true
    · have hnil : l.filter p = [] := by
        rw [List.filter_eq_nil_iff]
        intro x hx hpx
        exact ha x hx ⟨hpa, hpx⟩
      simp [List.filter_cons, hpa, hnil]
    · simpa [List.filter_cons, hpa] using ih hl

/-- In a cart with pairwise-distinct `(user, coffee)` pairs, `find?` on a
pair returns exactly the member row carrying that pair. -/
theorem find_pair_eq_of_mem {l : List CartItem} {u : Int} {c : Nat}
    {r : CartItem} (hp : PairwiseUniqueCart l) (hr : r ∈ l)
    (hru : r.user_id = u) (hrc : r.coffee_id = c) :
    l.find? (fun x => decide (x.user_id = u ∧ x.coffee_id = c)) = some r := by
  induction l with
  | nil => cases hr
  | cons a l ih =>
    rcases List.pairwise_cons.mp hp with ⟨ha, hl⟩
    rcases List.mem_cons.mp hr with h | h
    · subst h
      simp [List.find?_cons_of_pos, hru, hrc]
    · by_cases hpa : a.user_id = u ∧ a.coffee_id = c
      · exact absurd ⟨hpa.1.trans hru.symm, hpa.2.trans hrc.symm⟩ (ha r h)
      · rw [List.find?_cons_of_neg _ (by simpa using hpa)]
        exact ih hl h

/-- The empty store satisfies the invariant. -/
theorem storeInv_empty : StoreInv emptyStore := by
  constructor <;> simp [emptyStore, PairwiseUniqueCart]

/-- `add_coffee` preserves the invariant. -/
theorem storeInv_add_coffee {st : Store} (h : StoreInv st)
    (n d p : String) (pr : ℚ) : StoreInv (add_coffee n d p pr st).2 := by
  obtain ⟨h1, h2, h3, h4, h5⟩ := h
  refine ⟨?_, ?_, h3, h4, h5⟩
  · intro c hc
    simp only [add_coffee, List.mem_append, List.mem_singleton] at hc
    rcases hc with hc | hc
    · exact Nat.lt_succ_of_lt (h1 c hc)
    · subst hc; exact Nat.lt_succ_self _
  · simp only [add_coffee, List.pairwise_append, List.pairwise_singleton,
      List.mem_singleton]
    refine ⟨h2, trivial, ?_⟩
    intro a ha b hb
    subst hb
    exact Nat.ne_of_lt (h1 a ha)

/-- `update_coffee` preserves the invariant. -/
theorem storeInv_update_coffee {st : Store} (h : StoreInv st)
    (i : Nat) (n d p : String) (pr : ℚ) :
    StoreInv (update_coffee i n d p pr st).2 := by
  obtain ⟨h1, h2, h3, h4, h5⟩ := h
  have hid : ∀ c : Coffee,
      ((if c.id = i then
          { c with name := n, description := d, picture_url := p,
                   price := pr }
        else c) : Coffee).id = c.id := by
    intro c; split <;> rfl
  refine ⟨?_, ?_, h3, h4, h5⟩
  · intro c hc
    simp only [update_coffee, List.mem_map] at hc
    obtain ⟨x, hx, rfl⟩ := hc
    rw [hid]
    exact h1 x hx
  · simp only [update_coffee]
    rw [List.pairwise_map]
    exact h2.imp (by intro a b hab; rw [hid, hid]; exact hab)

/-- `delete_coffee` preserves the invariant. -/
theorem storeInv_delete_coffee {st : Store} (h : StoreInv st) (i : Nat) :
    StoreInv (delete_coffee i st).2 := by
  obtain ⟨h1, h2, h3, h4, h5⟩ := h
  refine ⟨?_, ?_, h3, h4, h5⟩
  · intro c hc
    exact h1 c (List.mem_of_mem_filter hc)
  · exact List.Pairwise.sublist (List.filter_sublist _) h2

/-- `add_to_cart` preserves the invariant. -/
theorem storeInv_add_to_cart {st : Store} (h : StoreInv st)
    (u : Int) (c : Nat) (k : Int) : StoreInv (add_to_cart u c k st).2 := by
  obtain ⟨h1, h2, h3, h4, h5⟩ := h
  by_cases hex : st.coffees.any (fun x => decide (x.id = c)) = true
  · rcases hfind : st.cart_items.find?
        (fun r => decide (r.user_id = u ∧ r.coffee_id = c)) with _ | r
    · -- no row for the pair: a fresh row is appended
      have hnone := List.find?_eq_none.mp hfind
      simp only [add_to_cart, hex, if_true, hfind]
      refine ⟨h1, h2, ?_, ?_, ?_⟩
      · intro x hx
        simp only [List.mem_append, List.mem_singleton] at hx
        rcases hx with hx | hx
        · exact Nat.lt_succ_of_lt (h3 x hx)
        · subst hx; exact Nat.lt_succ_self _
      · simp only [List.pairwise_append, List.pairwise_singleton,
          List.mem_singleton]
        refine ⟨h4, trivial, ?_⟩
        intro a ha b hb
        subst hb
        exact Nat.ne_of_lt (h3 a ha)
      · simp only [PairwiseUniqueCart, List.pairwise_append,
          List.pairwise_singleton, List.mem_singleton]
        refine ⟨h5, trivial, ?_⟩
        intro a ha b hb hab
        subst hb
        exact hnone a ha (by simp [hab.1, hab.2])
    · -- the row exists: only its count changes
      have hid : ∀ x : CartItem,
          ((if x.id = r.id then { x with count := r.count + k } else x) :
            CartItem).id = x.id := by
        intro x; split <;> rfl
      have huser : ∀ x : CartItem,
          ((if x.id = r.id then { x with count := r.count + k } else x) :
            CartItem).user_id = x.user_id := by
        intro x; split <;> rfl
      have hcof : ∀ x : CartItem,
          ((if x.id = r.id then { x with count := r.count + k } else x) :
            CartItem).coffee_id = x.coffee_id := by
        intro x; split <;> rfl
      simp only [add_to_cart, hex, if_true, hfind]
      refine ⟨h1, h2, ?_, ?_, ?_⟩
      · intro x hx
        simp only [List.mem_map] at hx
        obtain ⟨y, hy, rfl⟩ := hx
        rw [hid]
        exact h3 y hy
      · rw [List.pairwise_map]
        exact h4.imp (by intro a b hab; rw [hid, hid]; exact hab)
      · rw [PairwiseUniqueCart, List.pairwise_map]
        exact h5.imp (by
          intro a b hab
          rw [huser, huser, hcof, hcof]
          exact hab)
  · simp only [add_to_cart, hex, if_false]
    exact ⟨h1, h2, h3, h4, h5⟩

/-- `clear_cart` preserves the invariant. -/
theorem storeInv_clear_cart {st : Store} (h : StoreInv st)
    (u : Option Int) : StoreInv (clear_cart u st).2 := by
  obtain ⟨h1, h2, h3, h4, h5⟩ := h
  cases u with
  | some v =>
    refine ⟨h1, h2, ?_, ?_, ?_⟩
    · intro x hx
      exact h3 x (List.mem_of_mem_filter hx)
    · exact List.Pairwise.sublist (List.filter_sublist _) h4
    · exact List.Pairwise.sublist (List.filter_sublist _) h5
  | none => exact ⟨h1, h2, by simp [clear_cart], by simp [clear_cart],
      by simp [clear_cart, PairwiseUniqueCart]⟩

/-- Every public operation preserves the invariant. -/
theorem storeInv_applyOp {st : Store} (h : StoreInv st) (op : Op) :
    StoreInv (applyOp st op) := by
  cases op with
  | opInitDb => exact h
  | opAddCoffee n d p pr => exact storeInv_add_coffee h n d p pr
  | opUpdateCoffee i n d p pr => exact storeInv_update_coffee h i n d p pr
  | opDeleteCoffee i => exact storeInv_delete_coffee h i
  | opAddToCart u c k => exact storeInv_add_to_cart h u c k
  | opClearCart u => exact storeInv_clear_cart h u

/-- Every state reachable from the empty store satisfies the invariant. -/
theorem storeInv_runOps (ops : List Op) : StoreInv (runOps ops) := by
  suffices h : ∀ st, StoreInv st → StoreInv (ops.foldl applyOp st) from
    h emptyStore storeInv_empty
  induction ops with
  | nil => exact fun st h => h
  | cons op ops ih =>
    intro st h
    exact ih _ (storeInv_applyOp h op)

/-- `view_cart`'s running total is the sum of the lines' `total_price`. -/
theorem view_cart_total_eq_sum (l : List CartLine) :
    view_cart_total l = (l.map CartLine.total_price).sum := by
  simp [view_cart_total, List.sum_eq_foldl, List.foldl_map]

/-! ## Claims -/

/-- C1: the claim says `deleteCoffee(id)` also removes every cart row whose
`coffee_id = id`. The code does not: no connection ever runs
`PRAGMA foreign_keys = ON`, so the schema's `ON DELETE CASCADE` is inert.
Evaluated at the failing input — catalog `{Latte (id 1)}`, cart
`{(user 1, coffee 1, count 2)}` — `deleteCoffee 1` returns `True` and
`listCoffee 1` is afterwards empty, but the cart row referencing coffee 1
survives in the cart relation. -/
theorem c1_delete_coffee_does_not_cascade :
    delete_coffee 1 (runOps [Op.opAddCoffee "Latte" "Smooth" "latte.png" 3,
        Op.opAddToCart 1 1 2]) =
      (true, ⟨[], [⟨1, 1, 1, 2⟩], 2, 2⟩)
    ∧ list_coffee (some 1)
        (delete_coffee 1 (runOps [Op.opAddCoffee "Latte" "Smooth" "latte.png" 3,
          Op.opAddToCart 1 1 2])).2 = []
    ∧ (delete_coffee 1 (runOps [Op.opAddCoffee "Latte" "Smooth" "latte.png" 3,
        Op.opAddToCart 1 1 2])).2.cart_items ≠ [] := by
  decide

/-- C3: handling a checkout event clears the cart relation globally — every
user's rows are deleted, whoever initiated the checkout — leaves the catalog
untouched, and replaces the cart view with the confirmation message. -/
theorem c3_checkout_clears_cart_globally (requesting_user : Int) (st : Store) :
    (callback_checkout requesting_user st).1.cart_items = []
    ∧ (∀ u : Int, ((callback_checkout requesting_user st).1.cart_items.filter
        (fun r => decide (r.user_id = u))) = [])
    ∧ (callback_checkout requesting_user st).2 = Render.checkoutConfirmation
    ∧ (callback_checkout requesting_user st).1.coffees = st.coffees :=
  ⟨rfl, fun _ => rfl, rfl, rfl⟩

/-- C4: when `coffee_id` references no existing coffee, `addToCart` returns
`False` without throwing and leaves the whole store — in particular the cart
relation — unchanged. -/
theorem c4_add_to_cart_nonexistent_coffee (u : Int) (c : Nat) (k : Int)
    (st : Store) (h : ∀ cf ∈ st.coffees, cf.id ≠ c) :
    add_to_cart u c k st = (false, st) := by
  have hany : st.coffees.any (fun x => decide (x.id = c)) = false :=
    List.any_eq_false.mpr (fun x hx => by simpa using h x hx)
  simp [add_to_cart, hany]

/-- Witness for C4: coffee id 99 is absent from a one-coffee catalog. -/
theorem c4_add_to_cart_nonexistent_coffee_witness :
    add_to_cart 42 99 1 (runOps [Op.opAddCoffee "Latte" "d" "u" 3]) =
      (false, runOps [Op.opAddCoffee "Latte" "d" "u" 3]) :=
  c4_add_to_cart_nonexistent_coffee 42 99 1
    (runOps [Op.opAddCoffee "Latte" "d" "u" 3]) (by decide)

/-- C6: `clearCart u` deletes exactly the rows with `user_id = u` (a row
survives iff it was there and belongs to another user), touching neither
the catalog nor other users' rows; `clearCart` without a user empties the
cart relation entirely. -/
theorem c6_clear_cart_scoping (u : Int) (st : Store) :
    (clear_cart (some u) st).1 = true
    ∧ (∀ r : CartItem, r ∈ (clear_cart (some u) st).2.cart_items ↔
        r ∈ st.cart_items ∧ r.user_id ≠ u)
    ∧ (clear_cart (some u) st).2.coffees = st.coffees
    ∧ (clear_cart none st).1 = true
    ∧ (clear_cart none st).2.cart_items = [] := by
  refine ⟨rfl, ?_, rfl, rfl, rfl⟩
  intro r
  simp [clear_cart, List.mem_filter]

/-- C9: `updateCoffee` on an id matching no catalog row returns `False` and
the store — catalog and cart alike — is exactly unchanged. -/
theorem c9_update_coffee_nonexistent_id (i : Nat) (n d p : String) (pr : ℚ)
    (st : Store) (h : ∀ cf ∈ st.coffees, cf.id ≠ i) :
    update_coffee i n d p pr st = (false, st) := by
  have hany : st.coffees.any (fun c => decide (c.id = i)) = false :=
    List.any_eq_false.mpr (fun x hx => by simpa using h x hx)
  have hmap : st.coffees.map (fun c =>
      if c.id = i then
        { c with name := n, description := d, picture_url := p, price := pr }
      else c) = st.coffees := by
    conv_rhs => rw [← List.map_id st.coffees]
    exact List.map_congr_left (fun c hc => by simp [h c hc])
  simp [update_coffee, hany, hmap]

/-- Witness for C9: updating id 99 in a one-coffee catalog. -/
theorem c9_update_coffee_nonexistent_id_witness :
    update_coffee 99 "X" "Y" "Z" 4 (runOps [Op.opAddCoffee "Latte" "d" "u" 3])
      = (false, runOps [Op.opAddCoffee "Latte" "d" "u" 3]) :=
  c9_update_coffee_nonexistent_id 99 "X" "Y" "Z" 4
    (runOps [Op.opAddCoffee "Latte" "d" "u" 3]) (by decide)

/-- C10: every line `getCartItems u` returns references a coffee present in
the catalog; a cart row whose `coffee_id` matches no catalog row contributes
no line (inner join), as the concrete orphaned store shows: the orphan row
is stored but invisible. -/
theorem c10_inner_join_hides_orphans (u : Int) (st : Store) :
    (∀ line ∈ get_cart_items (some u) st,
        ∃ cf ∈ st.coffees, cf.id = line.coffee_id)
    ∧ (∀ ci ∈ st.cart_items, (∀ cf ∈ st.coffees, cf.id ≠ ci.coffee_id) →
        ∀ line ∈ get_cart_items (some u) st, line.coffee_id ≠ ci.coffee_id)
    ∧ get_cart_items (some 5)
        { coffees := [], cart_items := [⟨1, 5, 1, 2⟩],
          next_coffee_id := 1, next_cart_id := 2 } = [] := by
  have hmain : ∀ line ∈ get_cart_items (some u) st,
      ∃ cf ∈ st.coffees, cf.id = line.coffee_id := by
    intro line hline
    simp only [get_cart_items, List.mem_filterMap, List.mem_filter] at hline
    obtain ⟨ci, hci, hmatch⟩ := hline
    rcases hfind : st.coffees.find? (fun c => decide (c.id = ci.coffee_id))
        with _ | cf
    · rw [hfind] at hmatch
      simp at hmatch
    · rw [hfind] at hmatch
      simp only [Option.some.injEq] at hmatch
      subst hmatch
      exact ⟨cf, List.mem_of_find?_eq_some hfind, rfl⟩
  refine ⟨hmain, ?_, by decide⟩
  intro ci hci hno line hline heq
  obtain ⟨cf, hcf, hcfid⟩ := hmain line hline
  exact hno cf hcf (hcfid.trans heq)

/-- C7: every line of `getCartItems u` has `total_price` equal to the
referenced catalog coffee's price times the line's count (the line's
`price` column is that coffee's price), and the grand total `view_cart`
renders is the sum of the lines' `total_price` values. -/
theorem c7_cart_totals (u : Int) (st : Store) :
    (∀ line ∈ get_cart_items (some u) st,
        line.total_price = line.price * (line.count : ℚ)
        ∧ ∃ cf ∈ st.coffees, cf.id = line.coffee_id ∧ cf.price = line.price)
    ∧ view_cart_total (get_cart_items (some u) st)
        = ((get_cart_items (some u) st).map CartLine.total_price).sum
    ∧ (∀ lines total, view_cart u st = Render.cartView lines total →
        total = (lines.map CartLine.total_price).sum) := by
  refine ⟨?_, view_cart_total_eq_sum _, ?_⟩
  · intro line hline
    simp only [get_cart_items, List.mem_filterMap, List.mem_filter] at hline
    obtain ⟨ci, hci, hmatch⟩ := hline
    rcases hfind : st.coffees.find? (fun c => decide (c.id = ci.coffee_id))
        with _ | cf
    · rw [hfind] at hmatch
      simp at hmatch
    · rw [hfind] at hmatch
      simp only [Option.some.injEq] at hmatch
      subst hmatch
      exact ⟨rfl, cf, List.mem_of_find?_eq_some hfind, rfl, rfl⟩
  · intro lines total h
    simp only [view_cart] at h
    by_cases hemp : (get_cart_items (some u) st).isEmpty
    · rw [if_pos hemp] at h
      cases h
    · rw [if_neg hemp] at h
      injection h with hl ht
      subst hl
      rw [← ht, view_cart_total_eq_sum]

/-- C5: in every state reachable from the empty store by public operations,
the cart relation has at most one row per `(user, coffee)` pair: distinct
rows never share a pair, and filtering on any pair keeps at most one row. -/
theorem c5_at_most_one_cart_row_per_pair (ops : List Op) :
    PairwiseUniqueCart (runOps ops).cart_items
    ∧ ∀ (u : Int) (c : Nat),
        ((runOps ops).cart_items.filter
          (fun r => decide (r.user_id = u ∧ r.coffee_id = c))).length ≤ 1 := by
  refine ⟨(storeInv_runOps ops).cart_pair_unique, ?_⟩
  intro u c
  apply length_filter_le_one_of_pairwise
  apply ((storeInv_runOps ops).cart_pair_unique).imp
  intro a b hab hp
  obtain ⟨hpa, hpb⟩ := hp
  simp only [decide_eq_true_eq] at hpa hpb
  exact hab ⟨hpa.1.trans hpb.1.symm, hpa.2.trans hpb.2.symm⟩

/-- C8: in every reachable state, `listCoffee id` returns at most one row —
exactly the catalog rows with that id, the empty list when none matches,
without raising — and `listCoffee` without an id returns a permutation of
the whole catalog sorted by name ascending. -/
theorem c8_list_coffee_contract (ops : List Op) (i : Nat) :
    (list_coffee (some i) (runOps ops)).length ≤ 1
    ∧ (∀ c : Coffee, c ∈ list_coffee (some i) (runOps ops) ↔
        c ∈ (runOps ops).coffees ∧ c.id = i)
    ∧ ((∀ c ∈ (runOps ops).coffees, c.id ≠ i) →
        list_coffee (some i) (runOps ops) = [])
    ∧ (list_coffee none (runOps ops)).Perm (runOps ops).coffees
    ∧ List.Sorted (fun a b => a.name ≤ b.name)
        (list_coffee none (runOps ops)) := by
  refine ⟨?_, ?_, ?_, ?_, ?_⟩
  · simp only [list_coffee]
    apply length_filter_le_one_of_pairwise
    apply ((storeInv_runOps ops).coffee_id_unique).imp
    intro a b hab hp
    obtain ⟨hpa, hpb⟩ := hp
    simp only [decide_eq_true_eq] at hpa hpb
    exact hab (hpa.trans hpb.symm)
  · intro c
    simp [list_coffee, List.mem_filter]
  · intro h
    simp only [list_coffee]
    rw [List.filter_eq_nil_iff]
    intro x hx
    simpa using h x hx
  · exact List.perm_insertionSort _ _
  · exact List.sorted_insertionSort _ _

/-- C2: for an existing coffee, `addToCart` upserts: with no row for the
pair a fresh row carrying the requested count is appended; with an existing
row for the pair, exactly that row's count is incremented by the requested
amount. In particular `addToCart(7, 1, 2)` then `addToCart(7, 1, 3)` from an
empty cart leaves exactly one row for `(7, 1)`, with count 5. -/
theorem c2_add_to_cart_upsert (ops : List Op) (u : Int) (c : Nat) (k : Int)
    (hc : ∃ cf ∈ (runOps ops).coffees, cf.id = c) :
    (add_to_cart u c k (runOps ops)).1 = true
    ∧ ((∀ r ∈ (runOps ops).cart_items,
          ¬(r.user_id = u ∧ r.coffee_id = c)) →
        (add_to_cart u c k (runOps ops)).2.cart_items
          = (runOps ops).cart_items ++ [⟨(runOps ops).next_cart_id, u, c, k⟩])
    ∧ (∀ r ∈ (runOps ops).cart_items, r.user_id = u → r.coffee_id = c →
        (add_to_cart u c k (runOps ops)).2.cart_items
          = (runOps ops).cart_items.map (fun x =>
              if x.id = r.id then { x with count := r.count + k } else x))
    ∧ (add_to_cart 7 1 3 (add_to_cart 7 1 2
        (runOps [Op.opAddCoffee "Latte" "d" "p" 3])).2).2.cart_items
        = [⟨1, 7, 1, 5⟩] := by
  obtain ⟨cf, hcf, hcfid⟩ := hc
  have hany : (runOps ops).coffees.any (fun x => decide (x.id = c)) = true :=
    List.any_eq_true.mpr ⟨cf, hcf, by simp [hcfid]⟩
  refine ⟨?_, ?_, ?_, by decide⟩
  · simp only [add_to_cart, hany, if_true]
    rcases hfind : (runOps ops).cart_items.find?
        (fun r => decide (r.user_id = u ∧ r.coffee_id = c)) with _ | r
    · rw [hfind]
    · rw [hfind]
  · intro hno
    have hfind : (runOps ops).cart_items.find?
        (fun r => decide (r.user_id = u ∧ r.coffee_id = c)) = none :=
      List.find?_eq_none.mpr (fun x hx => by simpa using hno x hx)
    simp only [add_to_cart, hany, if_true]
    rw [hfind]
  · intro r hr hru hrc
    have hfind := find_pair_eq_of_mem
      (storeInv_runOps ops).cart_pair_unique hr hru hrc
    simp only [add_to_cart, hany, if_true]
    rw [hfind]

/-- Witness for C2: adding 4 of the (existing) coffee 1 for user 5
succeeds. -/
theorem c2_add_to_cart_upsert_witness :
    (add_to_cart 5 1 4 (runOps [Op.opAddCoffee "Mocha" "d" "p" 2])).1
      = true :=
  (c2_add_to_cart_upsert [Op.opAddCoffee "Mocha" "d" "p" 2] 5 1 4
    (by decide)).1
